import Mathlib

/-!
Verification of the statistical-webapp engine against its specification.

The development shallowly embeds the numeric and orchestration logic of the
repository:

* `pm2.config.js` — the power-function component (`calculatePower`): the
  per-point power formula, the `for (let i = -3; i <= 3; i += 0.1)` sweep and
  the required-sample-size computation;
* `GoodnessOfFitTest` (the variant exporting `performAutoTest`, called
  part_000 below) — the auto-test orchestrator: configuration tables, pair
  enumeration, per-pair error capture, NaN filtering, combined scoring,
  descending stable sort and rank assignment, as well as the robust uniform
  and exponential parameter estimators;
* `src/components/GoodnessOfFitTest.tsx` — the standalone variant with its own
  configuration tables and estimator.

JavaScript numbers are modelled by `JsNum` (NaN, the two infinities, or an
exact rational) with JS comparison/division semantics; finite arithmetic is
idealised as exact rational arithmetic except where a claim hinges on
binary64 rounding, in which case the loop is modelled bit-exactly over scaled
integers (`roundStep`, `pm2LoopM`).  The engine's test executor
`executeGoFTest` lives in `../utils/statistics`, which is not part of the
sources; it is abstracted as a parameter (see `collectResults`), with the
properties the spec ascribes to it taken as hypotheses.
-/

namespace StatWeb

/-- JavaScript number values relevant to the embedded code: NaN, the two
infinities, and finite values idealised as exact rationals. -/
inductive JsNum : Type where
  | nan : JsNum
  | posInf : JsNum
  | negInf : JsNum
  | val : ℚ → JsNum
deriving DecidableEq, Repr

/-- JS `isNaN` on a `JsNum`. -/
def JsNum.isNaN : JsNum → Bool
  | .nan => true
  | _ => false

/-- A `JsNum` is finite when it is an actual rational value. -/
def JsNum.isFinite : JsNum → Bool
  | .val _ => true
  | _ => false

/-- JS `<` on numbers: any comparison involving NaN is false; the infinities
compare as expected. -/
def jsLtB : JsNum → JsNum → Bool
  | .val a, .val b => a < b
  | .val _, .posInf => true
  | .negInf, .val _ => true
  | .negInf, .posInf => true
  | _, _ => false

/-- JS `/` on numbers: division of a nonzero finite value by zero gives a
signed infinity, `0/0` and `inf/inf` give NaN, division by an infinity gives
zero.  (Negative zero is not tracked.) -/
def jsDiv : JsNum → JsNum → JsNum
  | .nan, _ => .nan
  | _, .nan => .nan
  | .posInf, .posInf => .nan
  | .posInf, .negInf => .nan
  | .negInf, .posInf => .nan
  | .negInf, .negInf => .nan
  | .posInf, .val b => if b < 0 then .negInf else .posInf
  | .negInf, .val b => if b < 0 then .posInf else .negInf
  | .val _, .posInf => .val 0
  | .val _, .negInf => .val 0
  | .val a, .val b =>
      if b = 0 then (if a = 0 then .nan else if 0 < a then .posInf else .negInf)
      else .val (a / b)

/-- The rational carried by a finite `JsNum` (0 for the non-finite values;
only ever applied after the orchestrator's NaN filter). -/
def jsToRat : JsNum → ℚ
  | .val q => q
  | _ => 0

/-- The four distribution tags of the goodness-of-fit suite. -/
inductive DistType : Type where
  | normal : DistType
  | uniform : DistType
  | exponential : DistType
  | poisson : DistType
deriving DecidableEq, Repr

/-- The test tags appearing in the configuration tables.  `shapiroWilk`
occurs in `supportedTests` lists but has no test-method entry, so it is never
executed. -/
inductive TestType : Type where
  | ks : TestType
  | chiSquare : TestType
  | andersonDarling : TestType
  | jarqueBera : TestType
  | shapiroWilk : TestType
deriving DecidableEq, Repr

/-- The gating fields of a distribution option (the descriptive string fields
are irrelevant to control flow and omitted). -/
structure DistOption : Type where
  type : DistType
  supportedTests : List TestType
deriving DecidableEq, Repr

/-- The gating fields of a test-method option. -/
structure TestMethodOption : Type where
  type : TestType
  applicableDistributions : List DistType
deriving DecidableEq, Repr

/-- `distributionOptions` of the auto-test component (part_000 lines
115-152).  Note poisson's `supportedTests` there includes Kolmogorov-Smirnov. -/
def autoDistributionOptions : List DistOption :=
  [ ⟨.normal, [.ks, .chiSquare, .andersonDarling, .shapiroWilk, .jarqueBera]⟩,
    ⟨.uniform, [.ks, .chiSquare]⟩,
    ⟨.exponential, [.ks, .chiSquare]⟩,
    ⟨.poisson, [.ks, .chiSquare]⟩ ]

/-- `testMethodOptions` of the auto-test component (part_000 lines 154-239):
its KS entry lists all four distributions as applicable. -/
def autoTestMethodOptions : List TestMethodOption :=
  [ ⟨.ks, [.normal, .uniform, .exponential, .poisson]⟩,
    ⟨.chiSquare, [.normal, .uniform, .exponential, .poisson]⟩,
    ⟨.andersonDarling, [.normal]⟩,
    ⟨.jarqueBera, [.normal]⟩ ]

/-- `distributionOptions` of `GoodnessOfFitTest.tsx` (lines 91-128): there
poisson supports only the chi-square test. -/
def tsxDistributionOptions : List DistOption :=
  [ ⟨.normal, [.ks, .chiSquare, .andersonDarling, .shapiroWilk, .jarqueBera]⟩,
    ⟨.uniform, [.ks, .chiSquare]⟩,
    ⟨.exponential, [.ks, .chiSquare]⟩,
    ⟨.poisson, [.chiSquare]⟩ ]

/-- `testMethodOptions` of `GoodnessOfFitTest.tsx` (lines 130-215): its KS
entry lists only the three continuous distributions. -/
def tsxTestMethodOptions : List TestMethodOption :=
  [ ⟨.ks, [.normal, .uniform, .exponential]⟩,
    ⟨.chiSquare, [.normal, .uniform, .exponential, .poisson]⟩,
    ⟨.andersonDarling, [.normal]⟩,
    ⟨.jarqueBera, [.normal]⟩ ]

/-- The (distribution, test) pairs enumerated by `performAutoTest` (part_000
lines 400-403): for each distribution option, the test-method options whose
type appears in the distribution's `supportedTests`. -/
def autoTestPairs : List (DistType × TestType) :=
  autoDistributionOptions.flatMap fun d =>
    (autoTestMethodOptions.filter fun m => d.supportedTests.contains m.type).map
      fun m => (d.type, m.type)

/-- The fields of a result returned by `executeGoFTest` that the orchestrator
reads (part_000 lines 467-480). -/
structure GoFRes : Type where
  statistic : JsNum
  pValue : JsNum
  isReject : Bool
  criticalValue : Option JsNum
  degreesOfFreedom : Option JsNum
deriving DecidableEq, Repr

/-- An entry of the orchestrator's `testResults` array (part_000 lines
468-480 and 485-496). -/
structure CollectedResult : Type where
  distributionType : DistType
  testType : TestType
  statistic : JsNum
  pValue : JsNum
  isReject : Bool
  confidenceLevel : ℚ
  criticalValue : Option JsNum
  degreesOfFreedom : Option JsNum
deriving DecidableEq, Repr

/-- A collected entry extended with the combined score and rank that the
orchestrator adds (part_000 lines 504-526); `rank` is 0 until assigned. -/
structure ScoredResult : Type where
  base : CollectedResult
  combinedScore : ℚ
  rank : ℕ
deriving DecidableEq, Repr

/-- The collection loop of `performAutoTest` (part_000 lines 400-499).
`executeGoFTest` lives in `../utils/statistics`, which is not among the
sources, so it is abstracted as the `engine` parameter (together with the
in-loop parameter estimation feeding it); a per-pair exception from the try
block is an `Except.error`.  On success the entry copies the result's fields
(confidence level `1 - alpha`); on failure the catch block records NaN
statistic and p-value with `isReject = true` and continues. -/
def collectResults (engine : DistType → TestType → Except Unit GoFRes)
    (alpha : ℚ) : List CollectedResult :=
  autoTestPairs.map fun p =>
    match engine p.1 p.2 with
    | .ok r =>
        ⟨p.1, p.2, r.statistic, r.pValue, r.isReject, 1 - alpha,
          r.criticalValue, r.degreesOfFreedom⟩
    | .error _ => ⟨p.1, p.2, .nan, .nan, true, 1 - alpha, none, none⟩

/-- `methodWeightMap` with its `|| 1.0` fallback (part_000 lines 508-515);
`shapiroWilk` is absent from the map, so it takes the fallback weight 1. -/
def methodWeight : TestType → ℚ
  | .ks => 1
  | .chiSquare => 9/10
  | .andersonDarling => 11/10
  | .jarqueBera => 4/5
  | .shapiroWilk => 1

/-- `significanceBonus` (part_000 line 517): 0.05 when `pValue > 0.1`, else 0
(false for NaN, matching JS comparison semantics). -/
def significanceBonus (p : JsNum) : ℚ :=
  if jsLtB (.val (1/10)) p then 1/20 else 0

/-- The scoring map (part_000 lines 504-523): `combinedScore =
(pValue + bonus) * methodWeight`.  It runs after the NaN filter, so the
p-value is read off with `jsToRat`. -/
def scoreResult (r : CollectedResult) : ScoredResult :=
  ⟨r, (jsToRat r.pValue + significanceBonus r.pValue) * methodWeight r.testType, 0⟩

/-- Filtering out NaN p-values and scoring (part_000 lines 502-524). -/
def scoredResults (engine : DistType → TestType → Except Unit GoFRes)
    (alpha : ℚ) : List ScoredResult :=
  ((collectResults engine alpha).filter fun r => !r.pValue.isNaN).map scoreResult

/-- The order used by `.sort((a, b) => b.combinedScore - a.combinedScore)`
(part_000 line 525): descending by combined score. -/
def scoreGE (a b : ScoredResult) : Prop := b.combinedScore ≤ a.combinedScore

instance : DecidableRel scoreGE := fun a b =>
  inferInstanceAs (Decidable (b.combinedScore ≤ a.combinedScore))

instance : IsTotal ScoredResult scoreGE :=
  ⟨fun a b => (le_total b.combinedScore a.combinedScore).imp id id⟩

instance : IsTrans ScoredResult scoreGE :=
  ⟨fun _ _ _ h h' => le_trans h' h⟩

/-- The sort step (part_000 line 525).  ECMAScript `Array.sort` is stable and
the comparator is a total preorder on the (NaN-free) scored entries, so its
result is the unique stable descending order, modelled by insertion sort. -/
def sortedResults (engine : DistType → TestType → Except Unit GoFRes)
    (alpha : ℚ) : List ScoredResult :=
  (scoredResults engine alpha).insertionSort scoreGE

/-- Rank assignment (part_000 line 526):
`.map((result, index) => (..., rank: index + 1))`. -/
def assignRanks : ℕ → List ScoredResult → List ScoredResult
  | _, [] => []
  | i, r :: rs => { r with rank := i } :: assignRanks (i + 1) rs

/-- The final ranked list returned by `performAutoTest`. -/
def rankedResults (engine : DistType → TestType → Except Unit GoFRes)
    (alpha : ℚ) : List ScoredResult :=
  assignRanks 1 (sortedResults engine alpha)

/-- Modelled from the spec: `calculateMean` is imported from
`../utils/statistics`, which is absent from the sources; the spec (section
4.2) fixes it as the arithmetic mean of the sample. -/
def calculateMean (data : List ℚ) : ℚ := data.sum / data.length

/-- The exponential branch of `estimateParameters` in
`GoodnessOfFitTest.tsx` (lines 252-255): `lambda = 1 / mean`, with no guard
on the sign of the mean. -/
def estimateExponentialTsx (data : List ℚ) : JsNum :=
  jsDiv (.val 1) (.val (calculateMean data))

/-- The exponential branch of the auto-test estimation (part_000 lines
433-442): fall back to `lambda = 1` when the mean is not positive. -/
def estimateExponentialAuto (data : List ℚ) : JsNum :=
  if calculateMean data ≤ 0 then .val 1
  else jsDiv (.val 1) (.val (calculateMean data))

/-- The robust uniform estimation of the auto-test path (part_000 lines
417-431): with `sortedData` the ascending sort of the dataset and `n` its
length, `q1 = sortedData[Math.floor(n * 0.25)]`,
`q3 = sortedData[Math.floor(n * 0.75)]` (exact floors, hence the natural
divisions `n / 4` and `3 * n / 4`), and
`a = max(sortedData[0], q1 - 3 * iqr)`,
`b = min(sortedData[n-1], q3 + 3 * iqr)`. -/
def robustUniformParams (data : List ℚ) : ℚ × ℚ :=
  let sortedData := data.insertionSort (· ≤ ·)
  let n := sortedData.length
  let q1 := sortedData.getD (n / 4) 0
  let q3 := sortedData.getD (3 * n / 4) 0
  let iqr := q3 - q1
  (max (sortedData.getD 0 0) (q1 - 3 * iqr),
   min (sortedData.getD (n - 1) 0) (q3 + 3 * iqr))

/-- The per-point power computation of `calculatePower` in `pm2.config.js`
(lines 105-111), for the two-tailed test it implements:
`z = (mu - mu0) / (sigma / sqrt(n))` with the standard error
`sigma / sqrt(n)` abstracted as the parameter `se` (it is irrational in
general; every property proved here evaluates `z` at `mu = mu0`, where the
numerator is 0 for every positive `se`), then
`power = 1 - (|z| - 1.96 < 0 ? |z| - 1.96 : |z| + 1.96)` clamped to [0, 1]. -/
def pm2Power (mu0 se mu : ℚ) : ℚ :=
  let z := (mu - mu0) / se
  let power := 1 - (if |z| - 196/100 < 0 then |z| - 196/100 else |z| + 196/100)
  min (max power 0) 1

/-- The required-sample-size computation of `calculatePower` in
`pm2.config.js` (lines 114-121): `delta = effectSize * sigma`,
`zAlpha = 1.96` and `zBeta = 0.84` are hard-coded constants (the source
comments read them as the alpha = 0.05 two-tailed and power = 0.8 values),
and the result is `ceil(((zAlpha + zBeta) * sigma / delta) ** 2)`.  The
user-selected significance level and target power are never consulted. -/
def pm2RequiredSampleSize (effectSize sigma : ℚ) : ℤ :=
  let delta := effectSize * sigma
  ⌈((196/100 + 84/100) * sigma / delta) ^ 2⌉

/-- Modelled from the spec: the standard-normal quantiles `z_p` (4-decimal
table values) at the probabilities reachable from the UI's significance
levels 0.01/0.05/0.10 and target powers 0.80/0.85/0.90/0.95.  Needed because
`calculateSampleSizeForPower` of `../utils/statistics` is absent from the
sources. -/
def zQuantile (p : ℚ) : ℚ :=
  if p = 995/1000 then 25758/10000
  else if p = 975/1000 then 196/100
  else if p = 95/100 then 16449/10000
  else if p = 9/10 then 12816/10000
  else if p = 85/100 then 10364/10000
  else if p = 8/10 then 8416/10000
  else 0

/-- Modelled from the spec: `requiredSampleSize(mu1, mu0, sigma, alpha, beta,
tailType)` solves `n = ((z_{1-alpha/2 or alpha} + z_{1-beta}) * sigma /
|mu1 - mu0|)^2`, rounded up to the next integer (spec section 4.3), with the
alpha-quantile depending on the tail type. -/
def specRequiredSampleSize (mu1 mu0 sigma alpha beta : ℚ)
    (twoTailed : Bool) : ℤ :=
  let zA := zQuantile (if twoTailed then 1 - alpha/2 else 1 - alpha)
  let zB := zQuantile (1 - beta)
  ⌈((zA + zB) * sigma / |mu1 - mu0|) ^ 2⌉

/-- Correct rounding of `m / 2^56` to the nearest IEEE-754 binary64 value
(round to nearest, ties to even), returned in the same `m / 2^56` scaling.
Valid for `|m| < 2^59`, i.e. magnitudes below 8, which covers every value of
the sweep loop; every loop value is an integer multiple of `2^-56`, so the
scaling is exact.  The bit length of `|m|` is located by a bounded fold
(avoiding well-founded recursion so that the kernel can evaluate); values
with at most 53 significant bits are exact, otherwise `m` is rounded to the
nearest multiple of the unit in the last place. -/
def roundStep (m : ℤ) : ℤ :=
  if m = 0 then 0 else
  let s : ℤ := if 0 < m then 1 else -1
  let a := m.natAbs
  let bl := (List.range 60).foldl (fun acc k => if 2 ^ k ≤ a then k + 1 else acc) 0
  if bl ≤ 53 then m
  else
    let g : ℕ := 2 ^ (bl - 53)
    let q := a / g
    let r := a % g
    let q2 :=
      if 2 * r < g then q
      else if g < 2 * r then q + 1
      else if q % 2 = 0 then q else q + 1
  s * (q2 * g : ℕ)

/-- The loop-counter orbit of `for (let i = -3; i <= 3; i += 0.1)` in
`calculatePower` (`pm2.config.js` line 98), in binary64 arithmetic scaled by
`2^56`: the counter starts at the exact value -3, and each iteration adds the
double nearest 0.1 (which is `7205759403792794 / 2^56`) and rounds the exact
sum back to a double.  The fuel bound 100 exceeds any possible iteration
count. -/
def pm2LoopM : ℕ → ℤ → List ℤ
  | 0, _ => []
  | fuel + 1, m =>
      if m ≤ 3 * 2 ^ 56 then m :: pm2LoopM fuel (roundStep (m + 7205759403792794))
      else []

/-- The values taken by the loop counter `i` of the sweep, as rationals. -/
def pm2LoopIs : List ℚ := (pm2LoopM 100 (-3 * 2 ^ 56)).map fun m => (m : ℚ) / 2 ^ 56

/-- `muAlternatives` as generated by `calculatePower` (`pm2.config.js` lines
95-100): `mu0 + i * step` for each loop value `i`, with `step` the standard
error `sigma / sqrt(n)` abstracted as `se`. -/
def pm2MuAlternatives (mu0 se : ℚ) : List ℚ :=
  pm2LoopIs.map fun i => mu0 + i * se

/-- Modelled from the spec: the exact-arithmetic reading of the same sweep
(the loop counter advancing by exactly 0.1 from -3 while at most 3, as the
source comment and spec section 4.3 describe it), counted in tenths. -/
def idealLoopTenths : ℕ → ℤ → List ℤ
  | 0, _ => []
  | fuel + 1, t => if t ≤ 30 then t :: idealLoopTenths fuel (t + 1) else []

/-- The mu values of the exact-arithmetic sweep. -/
def idealMuAlternatives (mu0 se : ℚ) : List ℚ :=
  (idealLoopTenths 100 (-30)).map fun t => mu0 + ((t : ℚ) / 10) * se

/-! ### Helper lemmas -/

theorem jsLtB_val_val (a b : ℚ) : jsLtB (.val a) (.val b) = decide (a < b) := rfl

theorem listGetD_eq_get (l : List ℚ) (n : ℕ) (h : n < l.length) :
    l.getD n 0 = l.get ⟨n, h⟩ := by
  simp [List.getD_eq_getElem?_getD, List.getElem?_eq_getElem h, List.get_eq_getElem]

theorem assignRanks_map_rank (i : ℕ) (l : List ScoredResult) :
    (assignRanks i l).map (·.rank) = List.range' i l.length := by
  induction l generalizing i with
  | nil => rfl
  | cons r rs ih => simp [assignRanks, List.range', ih]

theorem assignRanks_map_score (i : ℕ) (l : List ScoredResult) :
    (assignRanks i l).map (·.combinedScore) = l.map (·.combinedScore) := by
  induction l generalizing i with
  | nil => rfl
  | cons r rs ih => simp [assignRanks, ih]

theorem assignRanks_length (i : ℕ) (l : List ScoredResult) :
    (assignRanks i l).length = l.length := by
  induction l generalizing i with
  | nil => rfl
  | cons r rs ih => simp [assignRanks, ih]

theorem mem_assignRanks {e : ScoredResult} {i : ℕ} {l : List ScoredResult}
    (he : e ∈ assignRanks i l) :
    ∃ e' ∈ l, e.base = e'.base ∧ e.combinedScore = e'.combinedScore := by
  induction l generalizing i with
  | nil => cases he
  | cons r rs ih =>
    rcases List.mem_cons.mp he with h | h
    · exact ⟨r, List.mem_cons_self r rs, by rw [h], by rw [h]⟩
    · obtain ⟨e', he', hb, hs⟩ := ih h
      exact ⟨e', List.mem_cons_of_mem r he', hb, hs⟩

/-- Every entry of the ranked list descends from a collected entry that
survived the NaN filter, with the same base fields and score. -/
theorem mem_rankedResults_elim {engine : DistType → TestType → Except Unit GoFRes}
    {alpha : ℚ} {e : ScoredResult} (he : e ∈ rankedResults engine alpha) :
    ∃ c ∈ collectResults engine alpha, c.pValue.isNaN = false ∧
      e.base = c ∧ e.combinedScore = (scoreResult c).combinedScore := by
  obtain ⟨e', he', hb, hs⟩ := mem_assignRanks he
  have he'' : e' ∈ scoredResults engine alpha :=
    (List.mem_insertionSort _).mp he'
  obtain ⟨c, hc, rfl⟩ := List.mem_map.mp he''
  have hc' := List.mem_filter.mp hc
  refine ⟨c, hc'.1, ?_, hb, hs⟩
  simpa using hc'.2

/-- Every entry of the collection loop arises from an enumerated pair through
the engine call for that pair. -/
theorem mem_collectResults_elim {engine : DistType → TestType → Except Unit GoFRes}
    {alpha : ℚ} {e : CollectedResult} (he : e ∈ collectResults engine alpha) :
    ∃ p ∈ autoTestPairs,
      (∃ r, engine p.1 p.2 = .ok r ∧
        e = ⟨p.1, p.2, r.statistic, r.pValue, r.isReject, 1 - alpha,
          r.criticalValue, r.degreesOfFreedom⟩) ∨
      (engine p.1 p.2 = .error () ∧
        e = ⟨p.1, p.2, .nan, .nan, true, 1 - alpha, none, none⟩) := by
  obtain ⟨p, hp, hfp⟩ := List.mem_map.mp he
  refine ⟨p, hp, ?_⟩
  rcases hE : engine p.1 p.2 with u | r
  · cases u
    right
    rw [hE] at hfp
    exact ⟨rfl, hfp.symm⟩
  · left
    rw [hE] at hfp
    exact ⟨r, rfl, hfp.symm⟩

/-- A concrete engine used by the witnesses: it raises a domain error on the
(poisson, KS) pair — which the orchestrator enumerates — and returns
consistent finite results elsewhere, with the (normal, KS) and (normal,
chi-square) p-values chosen so that the two entries receive equal combined
scores. -/
def engineW : DistType → TestType → Except Unit GoFRes
  | .poisson, .ks => .error ()
  | .normal, .ks => .ok ⟨.val 1, .val (9/100), false, none, none⟩
  | .normal, .chiSquare => .ok ⟨.val 1, .val (1/10), false, none, none⟩
  | _, _ => .ok ⟨.val 1, .val (1/2), false, none, none⟩

theorem engineW_consistent : ∀ d t r, engineW d t = Except.ok r →
    r.isReject = jsLtB r.pValue (.val (1/20)) := by
  intro d t r h
  cases d <;> cases t <;>
    first
      | exact Except.noConfusion h
      | (injection h with h; subst h; simp only [jsLtB_val_val]; symm;
         rw [decide_eq_false_iff_not]; norm_num)

theorem engineW_finite : ∀ d t r, engineW d t = Except.ok r →
    ∃ q, r.pValue = JsNum.val q := by
  intro d t r h
  cases d <;> cases t <;>
    first
      | exact Except.noConfusion h
      | (injection h with h; subst h; exact ⟨_, rfl⟩)

/-! ### Claim theorems -/

/-- Claim C1: the spec demands `power(mu0) = alpha` (within 1e-3) for the
power curve, but the per-point formula of `calculatePower` evaluates to 1 at
`mu = mu0` for every positive standard error: the z-statistic is 0 there, so
the code computes `1 - (0 - 1.96) = 2.96`, clamped to 1 — not within 1e-3 of
`alpha = 0.05` (nor of any UI-selectable significance level). -/
theorem pm2Power_at_null_is_one (mu0 se : ℚ) (hse : 0 < se) :
    pm2Power mu0 se mu0 = 1 ∧ ¬ |pm2Power mu0 se mu0 - 1/20| ≤ 1/1000 := by
  have hz : (mu0 - mu0) / se = 0 := by rw [sub_self, zero_div]
  constructor
  · simp only [pm2Power, hz]; norm_num
  · simp only [pm2Power, hz]
    norm_num
    rw [abs_of_nonneg (by norm_num : (0:ℚ) ≤ 19/20)]
    norm_num

/-- Witness for C1 at mu0 = 0, se = 1. -/
theorem pm2Power_at_null_is_one_witness :
    pm2Power 0 1 0 = 1 ∧ ¬ |pm2Power 0 1 0 - 1/20| ≤ 1/1000 :=
  pm2Power_at_null_is_one 0 1 (by norm_num)

/-- Claim C7: the required-sample-size computation of `pm2.config.js`
hard-codes `zAlpha = 1.96` and `zBeta = 0.84`, so its result never varies
with the supplied significance level or target power: at effect size 1 it
returns 8 for every alpha and beta, whereas the spec formula (with the
standard quantile table) returns 8 at (alpha, beta) = (0.05, 0.2) but 12 at
alpha = 0.01 and 11 at beta = 0.1. -/
theorem pm2RequiredSampleSize_ignores_alpha_beta :
    pm2RequiredSampleSize 1 1 = 8 ∧
    specRequiredSampleSize 1 0 1 (5/100) (2/10) true = 8 ∧
    specRequiredSampleSize 1 0 1 (1/100) (2/10) true = 12 ∧
    specRequiredSampleSize 1 0 1 (5/100) (1/10) true = 11 := by
  refine ⟨?_, ?_, ?_, ?_⟩ <;>
      norm_num [pm2RequiredSampleSize, specRequiredSampleSize, zQuantile] <;>
    rw [Int.ceil_eq_iff] <;> norm_num

/-- Claim C9: the sweep loop `for (let i = -3; i <= 3; i += 0.1)` accumulates
binary64 rounding error, so after 60 iterations the counter is
3.000000000000003 > 3 and the loop stops: the generated curve has 60 points
(the last near mu0 + 2.9 standard errors), not the 61 points up to
mu0 + 3 standard errors that the exact-arithmetic reading produces. -/
theorem pm2MuAlternatives_length_is_60 (mu0 se : ℚ) :
    (pm2MuAlternatives mu0 se).length = 60 ∧
    (idealMuAlternatives mu0 se).length = 61 := by
  constructor
  · rw [pm2MuAlternatives, List.length_map, pm2LoopIs, List.length_map]
    decide
  · rw [idealMuAlternatives, List.length_map]
    decide

/-- Counterexample for C6: the auto-test orchestrator's own configuration
lists Kolmogorov-Smirnov among poisson's supported tests, so the pair
(poisson, kolmogorov-smirnov) is among the combinations it enumerates and
executes. -/
theorem autoTestPairs_contains_poisson_ks :
    (DistType.poisson, TestType.ks) ∈ autoTestPairs := by decide

/-- Claim C6 (amended): in the standalone `GoodnessOfFitTest.tsx`
configuration, KS lists only the continuous distributions as applicable and
poisson's supported tests exclude KS; the auto-test component's
configuration, however, supports KS for poisson, and the orchestrator
enumerates the (poisson, KS) pair. -/
theorem ks_applicability_by_component :
    (tsxTestMethodOptions.find? fun m => m.type == .ks).map
        (fun m => m.applicableDistributions) =
      some [.normal, .uniform, .exponential] ∧
    (tsxDistributionOptions.find? fun d => d.type == .poisson).map
        (fun d => d.supportedTests.contains .ks) = some false ∧
    (DistType.poisson, TestType.ks) ∈ autoTestPairs := by
  refine ⟨by decide, by decide, by decide⟩

/-- Counterexample for C8: the exponential branch of `estimateParameters` in
`GoodnessOfFitTest.tsx` divides by the sample mean with no sign guard, so an
all-zero sample of length 5 yields lambda = 1/0 = Infinity on that estimation
path. -/
theorem estimateExponentialTsx_zero_mean_is_infinite :
    estimateExponentialTsx [0, 0, 0, 0, 0] = JsNum.posInf := by
  norm_num [estimateExponentialTsx, calculateMean, jsDiv]

/-- Claim C8 (amended): the auto-test estimation path does fall back to
lambda = 1 whenever the sample mean is nonpositive and returns the finite
value 1/mean otherwise, so that path never produces NaN or Infinity on the
samples the orchestrator admits (length at least 5). -/
theorem estimateExponentialAuto_safe (data : List ℚ) (h : 5 ≤ data.length) :
    (estimateExponentialAuto data).isFinite = true ∧
    (calculateMean data ≤ 0 → estimateExponentialAuto data = .val 1) ∧
    (0 < calculateMean data →
      estimateExponentialAuto data = .val (1 / calculateMean data)) := by
  unfold estimateExponentialAuto
  by_cases hm : calculateMean data ≤ 0
  · rw [if_pos hm]
    exact ⟨rfl, fun _ => rfl, fun hpos => absurd hpos (not_lt.mpr hm)⟩
  · have hpos : 0 < calculateMean data := lt_of_not_ge hm
    have hne : calculateMean data ≠ 0 := ne_of_gt hpos
    rw [if_neg hm]
    refine ⟨?_, fun hle => absurd hle hm, fun _ => ?_⟩ <;>
      simp [jsDiv, hne, JsNum.isFinite]

/-- Witness for C8's amended theorem on the sample [1, 2, 3, 4, 5]. -/
theorem estimateExponentialAuto_safe_witness :
    (5 ≤ ([1, 2, 3, 4, 5] : List ℚ).length) ∧
    (estimateExponentialAuto [1, 2, 3, 4, 5]).isFinite = true :=
  ⟨by norm_num, (estimateExponentialAuto_safe [1, 2, 3, 4, 5] (by norm_num)).1⟩

/-- Claim C2 (amended): for every entry the orchestrator collects whose
p-value is not NaN — in particular every entry of the ranked list — the
`isReject` flag equals `pValue < alpha`, provided every successful engine
result is internally consistent in that sense (spec section 4.4; the
executor itself is not among the sources).  Entries produced by the per-pair
catch block instead carry `pValue = NaN` with `isReject = true`, so the claim
as stated fails on them. -/
theorem collectResults_isReject_eq
    (engine : DistType → TestType → Except Unit GoFRes) (alpha : ℚ)
    (hengine : ∀ d t r, engine d t = Except.ok r →
      r.isReject = jsLtB r.pValue (.val alpha)) :
    (∀ e ∈ collectResults engine alpha,
      e.pValue.isNaN = false → e.isReject = jsLtB e.pValue (.val alpha)) ∧
    (∀ e ∈ rankedResults engine alpha,
      e.base.isReject = jsLtB e.base.pValue (.val alpha)) := by
  have main : ∀ e ∈ collectResults engine alpha,
      e.pValue.isNaN = false → e.isReject = jsLtB e.pValue (.val alpha) := by
    intro e he hnan
    obtain ⟨p, _, h⟩ := mem_collectResults_elim he
    rcases h with ⟨r, hE, rfl⟩ | ⟨hE, rfl⟩
    · exact hengine p.1 p.2 r hE
    · simp [JsNum.isNaN] at hnan
  refine ⟨main, fun e he => ?_⟩
  obtain ⟨c, hc, hnan, hb, _⟩ := mem_rankedResults_elim he
  rw [hb]
  exact main c hc hnan

/-- Counterexample for C2: with an engine raising on the (poisson, KS) pair
that the orchestrator enumerates, the collected list contains an entry whose
`isReject` is true while its NaN p-value is not below alpha. -/
theorem collectResults_isReject_mismatch :
    ((collectResults engineW (1/20)).all
      fun e => e.isReject == jsLtB e.pValue (.val (1/20))) = false := by
  apply List.all_eq_false.mpr
  refine ⟨⟨.poisson, .ks, .nan, .nan, true, 1 - 1/20, none, none⟩, ?_, by decide⟩
  exact List.mem_map.mpr ⟨(.poisson, .ks), by decide, rfl⟩

/-- Witness for C2's amended theorem: the (normal, KS) entry of the concrete
run is consistent. -/
theorem collectResults_isReject_eq_witness :
    (⟨.normal, .ks, .val 1, .val (9/100), false, 1 - 1/20, none, none⟩ :
        CollectedResult).isReject =
      jsLtB (JsNum.val (9/100)) (.val (1/20)) :=
  (collectResults_isReject_eq engineW (1/20) engineW_consistent).1
    ⟨.normal, .ks, .val 1, .val (9/100), false, 1 - 1/20, none, none⟩
    (List.mem_map.mpr ⟨(.normal, .ks), by decide, rfl⟩) rfl

/-- Claim C3: every entry of the ranked list carries
`combinedScore = (pValue + bonus) * methodWeight` with bonus 0.05 exactly
when the p-value exceeds 0.1 and the weights KS = 1.0, chi-square = 0.9,
Anderson-Darling = 1.1, Jarque-Bera = 0.8, and the list is sorted in
descending order of the combined score.  The engine hypothesis records that
successful executor results carry finite p-values (spec: p-values lie in
[0, 1]). -/
theorem rankedResults_score_formula
    (engine : DistType → TestType → Except Unit GoFRes) (alpha : ℚ)
    (hfin : ∀ d t r, engine d t = Except.ok r → ∃ q, r.pValue = JsNum.val q) :
    (∀ e ∈ rankedResults engine alpha, ∃ q, e.base.pValue = JsNum.val q ∧
      e.combinedScore =
        (q + if 1/10 < q then 1/20 else 0) * methodWeight e.base.testType) ∧
    ((rankedResults engine alpha).map (·.combinedScore)).Pairwise
      (fun a b => b ≤ a) := by
  constructor
  · intro e he
    obtain ⟨c, hc, hnan, hb, hs⟩ := mem_rankedResults_elim he
    obtain ⟨p, _, h⟩ := mem_collectResults_elim hc
    rcases h with ⟨r, hE, rfl⟩ | ⟨_, rfl⟩
    · obtain ⟨q, hq⟩ := hfin p.1 p.2 r hE
      refine ⟨q, by rw [hb]; exact hq, ?_⟩
      rw [hs, hb]
      simp only [scoreResult, significanceBonus, jsToRat, jsLtB, hq]
      by_cases hcmp : (1/10 : ℚ) < q <;> simp [hcmp]
    · simp [JsNum.isNaN] at hnan
  · rw [rankedResults, assignRanks_map_score]
    have hsorted : (sortedResults engine alpha).Pairwise scoreGE :=
      List.sorted_insertionSort scoreGE _
    exact hsorted.map _ fun a b h => h

/-- Witness for C3: the sortedness conclusion at the concrete engine. -/
theorem rankedResults_score_formula_witness :
    ((rankedResults engineW (1/20)).map (·.combinedScore)).Pairwise
      (fun a b => b ≤ a) :=
  (rankedResults_score_formula engineW (1/20) engineW_finite).2

/-- Claim C4: a per-pair engine failure is recorded as an entry with NaN
statistic and p-value and `isReject = true`; the loop still produces one
entry for every enumerated pair (no abort), and no NaN-marked entry survives
into the ranked list. -/
theorem performAutoTest_error_capture
    (engine : DistType → TestType → Except Unit GoFRes) (alpha : ℚ) :
    (∀ d t, (d, t) ∈ autoTestPairs → engine d t = Except.error () →
      (⟨d, t, .nan, .nan, true, 1 - alpha, none, none⟩ : CollectedResult) ∈
        collectResults engine alpha) ∧
    (collectResults engine alpha).length = autoTestPairs.length ∧
    (∀ e ∈ rankedResults engine alpha, e.base.pValue.isNaN = false) := by
  refine ⟨?_, ?_, ?_⟩
  · intro d t hmem herr
    refine List.mem_map.mpr ⟨(d, t), hmem, ?_⟩
    simp only [herr]
  · exact List.length_map _ _
  · intro e he
    obtain ⟨c, _, hnan, hb, _⟩ := mem_rankedResults_elim he
    rw [hb]
    exact hnan

/-- Witness for C4: the concrete engine raises on (poisson, KS) and the
corresponding NaN entry is collected. -/
theorem performAutoTest_error_capture_witness :
    (⟨.poisson, .ks, .nan, .nan, true, 1 - 1/20, none, none⟩ :
      CollectedResult) ∈ collectResults engineW (1/20) :=
  (performAutoTest_error_capture engineW (1/20)).1 .poisson .ks (by decide) rfl

/-- Claim C5: in the ranked list the rank fields are exactly 1..k in list
order, and two scored entries with equal combined score keep, after the
(stable) sort, the relative order in which their pairs were enumerated. -/
theorem rankedResults_ranks_and_stability
    (engine : DistType → TestType → Except Unit GoFRes) (alpha : ℚ) :
    (rankedResults engine alpha).map (·.rank) =
      List.range' 1 (rankedResults engine alpha).length ∧
    (∀ a b : ScoredResult, a.combinedScore = b.combinedScore →
      List.Sublist [a, b] (scoredResults engine alpha) →
      List.Sublist [a, b] (sortedResults engine alpha)) := by
  constructor
  · rw [rankedResults, assignRanks_map_rank, assignRanks_length]
  · intro a b hsc hsub
    exact List.pair_sublist_insertionSort (le_of_eq hsc.symm) hsub

/-- Witness for C5: in the concrete run, the (normal, KS) and (normal,
chi-square) entries score equally (0.09 each) and keep their enumeration
order through the sort; the ranks are the contiguous sequence from 1. -/
theorem rankedResults_ranks_and_stability_witness :
    (rankedResults engineW (1/20)).map (·.rank) =
      List.range' 1 (rankedResults engineW (1/20)).length ∧
    List.Sublist
      [scoreResult ⟨.normal, .ks, .val 1, .val (9/100), false, 1 - 1/20, none, none⟩,
       scoreResult ⟨.normal, .chiSquare, .val 1, .val (1/10), false, 1 - 1/20, none, none⟩]
      (sortedResults engineW (1/20)) := by
  refine ⟨(rankedResults_ranks_and_stability engineW (1/20)).1, ?_⟩
  apply (rankedResults_ranks_and_stability engineW (1/20)).2
  · show (9/100 + significanceBonus (.val (9/100))) * (1 : ℚ) =
      (1/10 + significanceBonus (.val (1/10))) * (9/10)
    norm_num [significanceBonus, jsLtB]
  · have hfil : (collectResults engineW (1/20)).filter (fun r => !r.pValue.isNaN) =
        [⟨.normal, .ks, .val 1, .val (9/100), false, 1 - 1/20, none, none⟩,
         ⟨.normal, .chiSquare, .val 1, .val (1/10), false, 1 - 1/20, none, none⟩,
         ⟨.normal, .andersonDarling, .val 1, .val (1/2), false, 1 - 1/20, none, none⟩,
         ⟨.normal, .jarqueBera, .val 1, .val (1/2), false, 1 - 1/20, none, none⟩,
         ⟨.uniform, .ks, .val 1, .val (1/2), false, 1 - 1/20, none, none⟩,
         ⟨.uniform, .chiSquare, .val 1, .val (1/2), false, 1 - 1/20, none, none⟩,
         ⟨.exponential, .ks, .val 1, .val (1/2), false, 1 - 1/20, none, none⟩,
         ⟨.exponential, .chiSquare, .val 1, .val (1/2), false, 1 - 1/20, none, none⟩,
         ⟨.poisson, .chiSquare, .val 1, .val (1/2), false, 1 - 1/20, none, none⟩] := rfl
    rw [scoredResults, hfil]
    exact (List.Sublist.cons₂ _ (List.Sublist.cons₂ _ (List.nil_sublist _))).map scoreResult

theorem getD_mem {S : List ℚ} {i : ℕ} (hi : i < S.length) : S.getD i 0 ∈ S := by
  rw [listGetD_eq_get S i hi]
  exact S.get_mem i hi

theorem sorted_getD_mono {S : List ℚ} (hs : S.Sorted (· ≤ ·)) {i j : ℕ}
    (hij : i ≤ j) (hj : j < S.length) : S.getD i 0 ≤ S.getD j 0 := by
  have hi : i < S.length := lt_of_le_of_lt hij hj
  rw [listGetD_eq_get S i hi, listGetD_eq_get S j hj]
  rcases eq_or_lt_of_le hij with rfl | hlt
  · exact le_refl _
  · exact hs.rel_get_of_lt (Fin.mk_lt_mk.mpr hlt)

theorem sorted_getD_bounds {S : List ℚ} (hs : S.Sorted (· ≤ ·)) {x : ℚ}
    (hx : x ∈ S) (h0 : 0 < S.length) :
    S.getD 0 0 ≤ x ∧ x ≤ S.getD (S.length - 1) 0 := by
  obtain ⟨⟨i, hi⟩, rfl⟩ := List.mem_iff_get.mp hx
  constructor
  · rw [← listGetD_eq_get S i hi]
    exact sorted_getD_mono hs (Nat.zero_le i) hi
  · have hg := sorted_getD_mono hs (show i ≤ S.length - 1 by omega)
      (show S.length - 1 < S.length by omega)
    rw [listGetD_eq_get S i hi] at hg
    exact hg

/-- Claim C10: the robust uniform estimate computed by the auto-test path —
`a = max(sample minimum, Q1 - 3 IQR)`, `b = min(sample maximum, Q3 + 3 IQR)`
with the quartiles read from the sorted sample — always satisfies
minimum ≤ a ≤ b ≤ maximum for every admitted sample (length at least 5), so
the estimated interval is never inverted or outside the observed range. -/
theorem robustUniformParams_bounds (data : List ℚ) (h : 5 ≤ data.length) :
    ∃ m M, m ∈ data ∧ M ∈ data ∧ (∀ x ∈ data, m ≤ x ∧ x ≤ M) ∧
      m ≤ (robustUniformParams data).1 ∧
      (robustUniformParams data).1 ≤ (robustUniformParams data).2 ∧
      (robustUniformParams data).2 ≤ M := by
  have hsort : (data.insertionSort (· ≤ ·)).Sorted (· ≤ ·) :=
    List.sorted_insertionSort (· ≤ ·) data
  have hperm : List.Perm (data.insertionSort (· ≤ ·)) data :=
    List.perm_insertionSort (· ≤ ·) data
  have hlen : (data.insertionSort (· ≤ ·)).length = data.length :=
    List.length_insertionSort (· ≤ ·) data
  set S := data.insertionSort (· ≤ ·) with hS
  have h0 : 0 < S.length := by omega
  have hq1 : S.length / 4 < S.length := by omega
  have hq3 : 3 * S.length / 4 < S.length := by omega
  have hlast : S.length - 1 < S.length := by omega
  have hrup : robustUniformParams data =
      (max (S.getD 0 0) (S.getD (S.length / 4) 0 -
          3 * (S.getD (3 * S.length / 4) 0 - S.getD (S.length / 4) 0)),
        min (S.getD (S.length - 1) 0) (S.getD (3 * S.length / 4) 0 +
          3 * (S.getD (3 * S.length / 4) 0 - S.getD (S.length / 4) 0))) := rfl
  have m1 : S.getD 0 0 ≤ S.getD (S.length / 4) 0 :=
    sorted_getD_mono hsort (Nat.zero_le _) hq1
  have m2 : S.getD (S.length / 4) 0 ≤ S.getD (3 * S.length / 4) 0 :=
    sorted_getD_mono hsort (by omega) hq3
  have m3 : S.getD (3 * S.length / 4) 0 ≤ S.getD (S.length - 1) 0 :=
    sorted_getD_mono hsort (by omega) hlast
  refine ⟨S.getD 0 0, S.getD (S.length - 1) 0,
    hperm.mem_iff.mp (getD_mem h0),
    hperm.mem_iff.mp (getD_mem hlast),
    fun x hx => sorted_getD_bounds hsort (hperm.mem_iff.mpr hx) h0,
    ?_, ?_, ?_⟩ <;> rw [hrup]
  · exact le_max_left _ _
  · exact max_le (le_min (by linarith) (by linarith))
      (le_min (by linarith) (by linarith))
  · exact min_le_left _ _

/-- Witness for C10 on the sample [1, 2, 3, 4, 5]. -/
theorem robustUniformParams_bounds_witness :
    (5 ≤ ([1, 2, 3, 4, 5] : List ℚ).length) ∧
    (∃ m M, m ∈ ([1, 2, 3, 4, 5] : List ℚ) ∧ M ∈ ([1, 2, 3, 4, 5] : List ℚ) ∧
      (∀ x ∈ ([1, 2, 3, 4, 5] : List ℚ), m ≤ x ∧ x ≤ M) ∧
      m ≤ (robustUniformParams [1, 2, 3, 4, 5]).1 ∧
      (robustUniformParams [1, 2, 3, 4, 5]).1 ≤ (robustUniformParams [1, 2, 3, 4, 5]).2 ∧
      (robustUniformParams [1, 2, 3, 4, 5]).2 ≤ M) :=
  ⟨by norm_num, robustUniformParams_bounds [1, 2, 3, 4, 5] (by norm_num)⟩

end StatWeb
